import Mathlib

/-!
Verification of the agency-name reconciliation core of
`backend/import_product_authorizations.py`.

The embedding below translates, from the source:
  - `normalize_name` (lower-case and trim),
  - `get_federal_organizations` (the organization index builder; the
    database dictionary is modelled as an association list whose lookup
    returns the most recently inserted binding, reproducing the
    last-write-wins overwrite semantics of a Python dict),
  - `match_agency_to_org` (the name matcher; the early-return statement
    chain of the source becomes a chain of conditionals),
  - the row-processing loop of `main` (the reconciliation pass), as a
    step function folded over the input rows, and
  - the summary reporting of `main`, whose percentage division is
    modelled as a fallible computation returning `none` exactly when the
    divisor `matched + unmatched` is zero.
-/

namespace FedrampImport

/-- Python `str.lower()`, modelled on the character list of the string
(ASCII case folding). -/
def pyLower (s : String) : String :=
  String.mk (s.data.map Char.toLower)

/-- Python `str.strip()`: drop whitespace from both ends, modelled on the
character list of the string. -/
def pyStrip (s : String) : String :=
  String.mk (((s.data.dropWhile Char.isWhitespace).reverse.dropWhile Char.isWhitespace).reverse)

/-- Python `str.startswith(p)` on the character lists. -/
def pyStartsWith (s p : String) : Bool :=
  p.data.isPrefixOf s.data

/-- Python slicing `s[n:]`: drop the first `n` characters. -/
def pyDrop (s : String) (n : Nat) : String :=
  String.mk (s.data.drop n)

/-- Source `normalize_name`: lower-case then strip surrounding whitespace;
the empty (falsy) string is returned unchanged. -/
def normalize_name (name : String) : String :=
  if name = "" then "" else pyStrip (pyLower name)

/-- One row of the `federal_organizations` table, with the columns selected
by `get_federal_organizations`. A NULL or empty `short_name` or
`abbreviation` is represented by the empty string, matching the falsiness
test of the source. -/
structure OrgRow where
  id : Nat
  name : String
  short_name : String
  abbreviation : String
  level : Nat
  parent_id : Option Nat
  is_active : Bool
deriving DecidableEq

/-- The organization index: a string-keyed dictionary to organization ids.
Lookup returns the most recently inserted binding for a key, which models
the overwrite-on-collision behaviour of the Python dict. -/
abbrev Dict := List (String × Nat)

/-- Dictionary lookup: the most recent (head-most) binding of the key. -/
def lookup (orgs : Dict) (key : String) : Option Nat :=
  (orgs.find? (fun p => p.1 == key)).map (fun p => p.2)

/-- Dictionary insertion: the new binding shadows any older one. -/
def dinsert (orgs : Dict) (key : String) (v : Nat) : Dict :=
  (key, v) :: orgs

/-- The alias registrations done for one organization row in the loop body
of `get_federal_organizations`: name always, then short name and
abbreviation when non-empty. -/
def indexRow (orgs : Dict) (r : OrgRow) : Dict :=
  let orgs1 := dinsert orgs (normalize_name r.name) r.id
  let orgs2 := if r.short_name ≠ "" then dinsert orgs1 (normalize_name r.short_name) r.id else orgs1
  if r.abbreviation ≠ "" then dinsert orgs2 (normalize_name r.abbreviation) r.id else orgs2

/-- Source `get_federal_organizations`: index every active organization row
by its normalized aliases. The SQL `WHERE is_active = true` becomes a
filter over the table rows. -/
def get_federal_organizations (rows : List OrgRow) : Dict :=
  (rows.filter (fun r => r.is_active)).foldl indexRow []

/-- Source `match_agency_to_org`. The early returns of the source become a
conditional chain; `normalized in orgs` followed by `orgs[normalized]`
becomes an `isSome` test followed by the same `lookup`. The prefix loop of
the source tries "Department of " and then "Department of the ", each
guarded by the truthiness test on `parent_agency`. -/
def match_agency_to_org (parent_agency sub_agency : String) (orgs : Dict) : Option Nat :=
  if parent_agency = "Legacy JAB Authorization" then none
  else if parent_agency = "Federal Risk and Authorization Management Program" then none
  else if sub_agency ≠ "" ∧ (lookup orgs (normalize_name sub_agency)).isSome then
    lookup orgs (normalize_name sub_agency)
  else if parent_agency ≠ "" ∧ (lookup orgs (normalize_name parent_agency)).isSome then
    lookup orgs (normalize_name parent_agency)
  else if parent_agency ≠ "" ∧ pyStartsWith parent_agency "Department of " ∧
      (lookup orgs (normalize_name (pyDrop parent_agency ("Department of ").length))).isSome then
    lookup orgs (normalize_name (pyDrop parent_agency ("Department of ").length))
  else if parent_agency ≠ "" ∧ pyStartsWith parent_agency "Department of the " ∧
      (lookup orgs (normalize_name (pyDrop parent_agency ("Department of the ").length))).isSome then
    lookup orgs (normalize_name (pyDrop parent_agency ("Department of the ").length))
  else none

/-- One raw CSV row, restricted to the five columns the loop reads; a
missing column is the empty string, as with `row.get(col, "")`. -/
structure InputRow where
  fedramp_id : String
  parent_agency : String
  sub_agency : String
  ato_issuance : String
  ato_expiration : String
deriving DecidableEq

/-- Trimmed `FedRAMP ID` field of a row. -/
def rowFid (r : InputRow) : String := pyStrip r.fedramp_id

/-- Trimmed `Parent Agency` field of a row. -/
def rowParent (r : InputRow) : String := pyStrip r.parent_agency

/-- Trimmed `Sub Agency` field of a row. -/
def rowSub (r : InputRow) : String := pyStrip r.sub_agency

/-- Trimmed `ATO Issuance Date` field of a row. -/
def rowIss (r : InputRow) : String := pyStrip r.ato_issuance

/-- Trimmed `ATO Expiration Date` field of a row. -/
def rowExp (r : InputRow) : String := pyStrip r.ato_expiration

/-- The skip condition of the loop: `not fedramp_id or not parent_agency`
after stripping. -/
def skippedRow (r : InputRow) : Bool :=
  rowFid r == "" || rowParent r == ""

/-- The deduplication key `(fedramp_id, parent_agency, sub_agency or "")`;
since the fields are already stripped strings, `sub_agency or ""` is
`sub_agency` itself. -/
def natKey (r : InputRow) : String × String × String :=
  (rowFid r, rowParent r, rowSub r)

/-- Python truthiness of the matcher result `int | None`: `None` and `0`
are falsy. -/
def truthy : Option Nat → Bool
  | none => false
  | some n => n != 0

/-- Empty strings become NULL in the emitted tuple: `x if x else None`. -/
def optOfStr (s : String) : Option String :=
  if s = "" then none else some s

/-- One emitted authorization tuple, with the column names of the insert
statement. -/
structure ResolvedAuthorization where
  fedramp_id : String
  organization_id : Option Nat
  parent_agency_name : String
  sub_agency_name : Option String
  ato_issuance_date : Option String
  ato_expiration_date : Option String
deriving DecidableEq

/-- The `stats` counter dictionary of `main`. -/
structure MatchStats where
  total : Nat
  matched : Nat
  unmatched : Nat
  skipped : Nat
  duplicates : Nat
deriving DecidableEq

/-- The mutable state of the processing loop of `main`: the `seen` key
set (kept in insertion order), the `authorizations` output list, the
counters, and the `unmatched_agencies` frequency table (an association
list in first-increment order, modelling `defaultdict(int)`). -/
structure ImportState where
  seen : List (String × String × String)
  authorizations : List ResolvedAuthorization
  stats : MatchStats
  unmatched_agencies : List (String × Nat)
deriving DecidableEq

/-- The state at loop entry: everything empty, all counters zero. -/
def initState : ImportState :=
  { seen := [], authorizations := [], stats := ⟨0, 0, 0, 0, 0⟩, unmatched_agencies := [] }

/-- Frequency-table update of `defaultdict(int)`: bump the count of `key`
in place, or append a first count of one. -/
def incr (tbl : List (String × Nat)) (key : String) : List (String × Nat) :=
  if tbl.any (fun p => p.1 == key) then
    tbl.map (fun p => if p.1 == key then (p.1, p.2 + 1) else p)
  else tbl ++ [(key, 1)]

/-- The unmatched-frequency key: `sub_agency if sub_agency else parent_agency`. -/
def freqKey (r : InputRow) : String :=
  if rowSub r ≠ "" then rowSub r else rowParent r

/-- The body of the `for row in rows` loop of `main`: count the row, skip
on missing required fields, drop natural-key duplicates, match, classify
as matched or unmatched by the truthiness of the matcher result, and emit
the authorization tuple. -/
def step (orgs : Dict) (s : ImportState) (row : InputRow) : ImportState :=
  let stats1 := { s.stats with total := s.stats.total + 1 }
  if skippedRow row then
    { s with stats := { stats1 with skipped := stats1.skipped + 1 } }
  else if natKey row ∈ s.seen then
    { s with stats := { stats1 with duplicates := stats1.duplicates + 1 } }
  else
    let org_id := match_agency_to_org (rowParent row) (rowSub row) orgs
    let auth : ResolvedAuthorization :=
      { fedramp_id := rowFid row
        organization_id := org_id
        parent_agency_name := rowParent row
        sub_agency_name := optOfStr (rowSub row)
        ato_issuance_date := optOfStr (rowIss row)
        ato_expiration_date := optOfStr (rowExp row) }
    if truthy org_id then
      { s with seen := s.seen ++ [natKey row]
               authorizations := s.authorizations ++ [auth]
               stats := { stats1 with matched := stats1.matched + 1 } }
    else
      { s with seen := s.seen ++ [natKey row]
               authorizations := s.authorizations ++ [auth]
               stats := { stats1 with unmatched := stats1.unmatched + 1 }
               unmatched_agencies := incr s.unmatched_agencies (freqKey row) }

/-- The whole reconciliation pass: fold the loop body over the rows from
the empty initial state. -/
def processRows (orgs : Dict) (rows : List InputRow) : ImportState :=
  rows.foldl (step orgs) initState

/-- The summary reporting of `main`: the two percentage divisions by
`unique_count = matched + unmatched`, which in Python raise
`ZeroDivisionError` when the divisor is zero; modelled as `none` in that
case. -/
def reportSummary (s : ImportState) : Option (Nat × Nat) :=
  let unique_count := s.stats.matched + s.stats.unmatched
  if unique_count = 0 then none
  else some (100 * s.stats.matched / unique_count, 100 * s.stats.unmatched / unique_count)

/-- The tail of `main` after the loop, in source order: the summary report
(with its divisions) runs first, and only if it succeeds is the insert
payload for the database mutation produced. -/
def runImport (orgs : Dict) (rows : List InputRow) :
    Option ((Nat × Nat) × List ResolvedAuthorization) :=
  let s := processRows orgs rows
  match reportSummary s with
  | none => none
  | some rep => some (rep, s.authorizations)

/-- The matcher result for one (trimmed) row against an index. -/
def matchResult (orgs : Dict) (r : InputRow) : Option Nat :=
  match_agency_to_org (rowParent r) (rowSub r) orgs

/-- The authorization tuple emitted for a retained row. -/
def mkAuth (orgs : Dict) (r : InputRow) : ResolvedAuthorization :=
  { fedramp_id := rowFid r
    organization_id := matchResult orgs r
    parent_agency_name := rowParent r
    sub_agency_name := optOfStr (rowSub r)
    ato_issuance_date := optOfStr (rowIss r)
    ato_expiration_date := optOfStr (rowExp r) }

/-- The natural key carried by an emitted tuple (NULL sub-agency read back
as the empty string). -/
def authKey (a : ResolvedAuthorization) : String × String × String :=
  (a.fedramp_id, a.parent_agency_name, a.sub_agency_name.getD "")

theorem authKey_mkAuth (orgs : Dict) (r : InputRow) : authKey (mkAuth orgs r) = natKey r := by
  by_cases h : rowSub r = "" <;> simp [authKey, mkAuth, natKey, optOfStr, h]

theorem step_skip (orgs : Dict) (s : ImportState) (r : InputRow) (h : skippedRow r = true) :
    step orgs s r =
      { s with stats := { s.stats with
                          total := s.stats.total + 1
                          skipped := s.stats.skipped + 1 } } := by
  simp [step, h]

theorem step_dup (orgs : Dict) (s : ImportState) (r : InputRow)
    (h1 : skippedRow r = false) (h2 : natKey r ∈ s.seen) :
    step orgs s r =
      { s with stats := { s.stats with
                          total := s.stats.total + 1
                          duplicates := s.stats.duplicates + 1 } } := by
  simp [step, h1, h2]

theorem step_new_matched (orgs : Dict) (s : ImportState) (r : InputRow)
    (h1 : skippedRow r = false) (h2 : natKey r ∉ s.seen)
    (h3 : truthy (matchResult orgs r) = true) :
    step orgs s r =
      { s with seen := s.seen ++ [natKey r]
               authorizations := s.authorizations ++ [mkAuth orgs r]
               stats := { s.stats with
                          total := s.stats.total + 1
                          matched := s.stats.matched + 1 } } := by
  simp only [matchResult] at h3
  simp [step, h1, h2, h3, mkAuth, matchResult]

theorem step_new_unmatched (orgs : Dict) (s : ImportState) (r : InputRow)
    (h1 : skippedRow r = false) (h2 : natKey r ∉ s.seen)
    (h3 : truthy (matchResult orgs r) = false) :
    step orgs s r =
      { s with seen := s.seen ++ [natKey r]
               authorizations := s.authorizations ++ [mkAuth orgs r]
               stats := { s.stats with
                          total := s.stats.total + 1
                          unmatched := s.stats.unmatched + 1 }
               unmatched_agencies := incr s.unmatched_agencies (freqKey r) } := by
  simp only [matchResult] at h3
  simp [step, h1, h2, h3, mkAuth, matchResult]

theorem step_total (orgs : Dict) (s : ImportState) (r : InputRow) :
    (step orgs s r).stats.total = s.stats.total + 1 := by
  cases h1 : skippedRow r with
  | true => rw [step_skip orgs s r h1]
  | false =>
    by_cases h2 : natKey r ∈ s.seen
    · rw [step_dup orgs s r h1 h2]
    · cases h3 : truthy (matchResult orgs r) with
      | true => rw [step_new_matched orgs s r h1 h2 h3]
      | false => rw [step_new_unmatched orgs s r h1 h2 h3]

theorem step_skipped_count (orgs : Dict) (s : ImportState) (r : InputRow) :
    (step orgs s r).stats.skipped
      = s.stats.skipped + (if skippedRow r then 1 else 0) := by
  cases h1 : skippedRow r with
  | true => rw [step_skip orgs s r h1]; simp
  | false =>
    by_cases h2 : natKey r ∈ s.seen
    · rw [step_dup orgs s r h1 h2]; simp
    · cases h3 : truthy (matchResult orgs r) with
      | true => rw [step_new_matched orgs s r h1 h2 h3]; simp
      | false => rw [step_new_unmatched orgs s r h1 h2 h3]; simp

/-- Sum of the four outcome counters of a state. -/
def csum (s : ImportState) : Nat :=
  s.stats.matched + s.stats.unmatched + s.stats.duplicates + s.stats.skipped

theorem step_csum (orgs : Dict) (s : ImportState) (r : InputRow) :
    csum (step orgs s r) = csum s + 1 := by
  cases h1 : skippedRow r with
  | true => rw [step_skip orgs s r h1]; simp [csum]; omega
  | false =>
    by_cases h2 : natKey r ∈ s.seen
    · rw [step_dup orgs s r h1 h2]; simp [csum]; omega
    · cases h3 : truthy (matchResult orgs r) with
      | true => rw [step_new_matched orgs s r h1 h2 h3]; simp [csum]; omega
      | false => rw [step_new_unmatched orgs s r h1 h2 h3]; simp [csum]; omega

/-- The per-state relation: as many emitted tuples as resolved rows. -/
theorem step_authlen (orgs : Dict) (s : ImportState) (r : InputRow)
    (h : s.authorizations.length = s.stats.matched + s.stats.unmatched) :
    (step orgs s r).authorizations.length
      = (step orgs s r).stats.matched + (step orgs s r).stats.unmatched := by
  cases h1 : skippedRow r with
  | true => rw [step_skip orgs s r h1]; simpa using h
  | false =>
    by_cases h2 : natKey r ∈ s.seen
    · rw [step_dup orgs s r h1 h2]; simpa using h
    · cases h3 : truthy (matchResult orgs r) with
      | true => rw [step_new_matched orgs s r h1 h2 h3]; simp [h]; omega
      | false => rw [step_new_unmatched orgs s r h1 h2 h3]; simp [h]; omega

theorem foldl_total (orgs : Dict) (rows : List InputRow) :
    ∀ s : ImportState,
      (rows.foldl (step orgs) s).stats.total = s.stats.total + rows.length := by
  induction rows with
  | nil => intro s; simp
  | cons r rows ih =>
    intro s
    simp only [List.foldl_cons, ih (step orgs s r), step_total, List.length_cons]
    omega

theorem foldl_skipped (orgs : Dict) (rows : List InputRow) :
    ∀ s : ImportState,
      (rows.foldl (step orgs) s).stats.skipped
        = s.stats.skipped + rows.countP skippedRow := by
  induction rows with
  | nil => intro s; simp
  | cons r rows ih =>
    intro s
    simp only [List.foldl_cons, ih (step orgs s r), step_skipped_count, List.countP_cons]
    omega

theorem foldl_csum (orgs : Dict) (rows : List InputRow) :
    ∀ s : ImportState, csum (rows.foldl (step orgs) s) = csum s + rows.length := by
  induction rows with
  | nil => intro s; simp
  | cons r rows ih =>
    intro s
    simp only [List.foldl_cons, ih (step orgs s r), step_csum, List.length_cons]
    omega

theorem foldl_authlen (orgs : Dict) (rows : List InputRow) :
    ∀ s : ImportState,
      s.authorizations.length = s.stats.matched + s.stats.unmatched →
      (rows.foldl (step orgs) s).authorizations.length
        = (rows.foldl (step orgs) s).stats.matched
          + (rows.foldl (step orgs) s).stats.unmatched := by
  induction rows with
  | nil => intro s h; simpa using h
  | cons r rows ih =>
    intro s h
    exact ih (step orgs s r) (step_authlen orgs s r h)

theorem processRows_authlen (orgs : Dict) (rows : List InputRow) :
    (processRows orgs rows).authorizations.length
      = (processRows orgs rows).stats.matched + (processRows orgs rows).stats.unmatched :=
  foldl_authlen orgs rows initState (by simp [initState])

/-- C1: counter partition of the input rows. For every input row sequence
the counters of the reconciliation pass satisfy
matched + unmatched + duplicates + skipped = total, the total equals the
number of input rows, and the number of emitted resolved records equals
matched + unmatched. -/
theorem counters_partition_input (orgs : Dict) (rows : List InputRow) :
    (processRows orgs rows).stats.matched + (processRows orgs rows).stats.unmatched
        + (processRows orgs rows).stats.duplicates + (processRows orgs rows).stats.skipped
      = (processRows orgs rows).stats.total
    ∧ (processRows orgs rows).stats.total = rows.length
    ∧ (processRows orgs rows).authorizations.length
        = (processRows orgs rows).stats.matched + (processRows orgs rows).stats.unmatched := by
  refine ⟨?_, ?_, processRows_authlen orgs rows⟩
  · have h1 := foldl_csum orgs rows initState
    have h2 := foldl_total orgs rows initState
    simp only [csum, initState] at h1 h2
    simp only [processRows, initState]
    omega
  · have h2 := foldl_total orgs rows initState
    simp only [initState] at h2
    simpa [processRows, initState] using h2

/-- C3: the two sentinel legacy-program labels are never matched: for every
sub-agency string and every index the matcher returns unresolved on them,
before any lookup is consulted. -/
theorem sentinel_labels_unresolved (sub : String) (orgs : Dict) :
    match_agency_to_org "Legacy JAB Authorization" sub orgs = none
    ∧ match_agency_to_org "Federal Risk and Authorization Management Program" sub orgs
        = none := by
  constructor
  · unfold match_agency_to_org
    rw [if_pos rfl]
  · unfold match_agency_to_org
    rw [if_neg (by decide), if_pos rfl]

/-- C6: a row whose FedRAMP id or parent agency is empty after trimming
only increments total and skipped: no resolved record is emitted, the seen
set and the frequency table are untouched, and the fold simply continues
with the remaining rows. -/
theorem skipped_row_only_counts (orgs : Dict) (s : ImportState) (r : InputRow)
    (rest : List InputRow) (h : skippedRow r = true) :
    step orgs s r =
      { s with stats := { s.stats with
                          total := s.stats.total + 1
                          skipped := s.stats.skipped + 1 } }
    ∧ (r :: rest).foldl (step orgs) s = rest.foldl (step orgs) (step orgs s r) :=
  ⟨step_skip orgs s r h, rfl⟩

theorem skipped_row_only_counts_witness :
    skippedRow ⟨"", "Agency A", "", "", ""⟩ = true
    ∧ step [] initState ⟨"", "Agency A", "", "", ""⟩ =
        { initState with stats := { initState.stats with
                          total := initState.stats.total + 1
                          skipped := initState.stats.skipped + 1 } } :=
  ⟨by decide,
    (skipped_row_only_counts [] initState ⟨"", "Agency A", "", "", ""⟩ [] (by decide)).1⟩

/-- C8: the reconciliation pass is a pure, deterministic function of the
input rows and the organization index: two runs on equal inputs produce
equal states (all counters, the frequency table, and the emitted record
list, order included). -/
theorem pass_deterministic (orgs1 orgs2 : Dict) (rows1 rows2 : List InputRow)
    (h1 : orgs1 = orgs2) (h2 : rows1 = rows2) :
    processRows orgs1 rows1 = processRows orgs2 rows2 := by
  rw [h1, h2]

theorem pass_deterministic_witness :
    processRows [("a", 1)] [⟨"F1", "a", "", "", ""⟩]
      = processRows [("a", 1)] [⟨"F1", "a", "", "", ""⟩] :=
  pass_deterministic [("a", 1)] [("a", 1)] [⟨"F1", "a", "", "", ""⟩]
    [⟨"F1", "a", "", "", ""⟩] rfl rfl

theorem step_seen_mono (orgs : Dict) (s : ImportState) (r : InputRow)
    (x : String × String × String) (hx : x ∈ s.seen) : x ∈ (step orgs s r).seen := by
  cases h1 : skippedRow r with
  | true => rw [step_skip orgs s r h1]; exact hx
  | false =>
    by_cases h2 : natKey r ∈ s.seen
    · rw [step_dup orgs s r h1 h2]; exact hx
    · cases h3 : truthy (matchResult orgs r) with
      | true => rw [step_new_matched orgs s r h1 h2 h3]; exact List.mem_append_left _ hx
      | false => rw [step_new_unmatched orgs s r h1 h2 h3]; exact List.mem_append_left _ hx

theorem step_seen_self (orgs : Dict) (s : ImportState) (r : InputRow)
    (h1 : skippedRow r = false) : natKey r ∈ (step orgs s r).seen := by
  by_cases h2 : natKey r ∈ s.seen
  · rw [step_dup orgs s r h1 h2]; exact h2
  · cases h3 : truthy (matchResult orgs r) with
    | true => rw [step_new_matched orgs s r h1 h2 h3]; simp
    | false => rw [step_new_unmatched orgs s r h1 h2 h3]; simp

theorem foldl_seen_mono (orgs : Dict) (rows : List InputRow) :
    ∀ (s : ImportState) (x : String × String × String),
      x ∈ s.seen → x ∈ (rows.foldl (step orgs) s).seen := by
  induction rows with
  | nil => intro s x hx; simpa using hx
  | cons r rows ih =>
    intro s x hx
    exact ih (step orgs s r) x (step_seen_mono orgs s r x hx)

theorem foldl_seen_of_mem (orgs : Dict) (rows : List InputRow) :
    ∀ (s : ImportState) (r : InputRow), r ∈ rows → skippedRow r = false →
      natKey r ∈ (rows.foldl (step orgs) s).seen := by
  induction rows with
  | nil => intro s r hr; exact absurd hr (List.not_mem_nil r)
  | cons a rows ih =>
    intro s r hr hsk
    rcases List.mem_cons.mp hr with heq | hmem
    · subst heq
      exact foldl_seen_mono orgs rows (step orgs s r) (natKey r)
        (step_seen_self orgs s r hsk)
    · exact ih (step orgs s a) r hmem hsk

/-- The per-state relation used for deduplication: the emitted keys list
the seen set in order, without repetition. -/
def keyInv (s : ImportState) : Prop :=
  s.authorizations.map authKey = s.seen ∧ s.seen.Nodup

theorem step_keyInv (orgs : Dict) (s : ImportState) (r : InputRow)
    (h : keyInv s) : keyInv (step orgs s r) := by
  obtain ⟨hmap, hnd⟩ := h
  cases h1 : skippedRow r with
  | true => rw [step_skip orgs s r h1]; exact ⟨hmap, hnd⟩
  | false =>
    by_cases h2 : natKey r ∈ s.seen
    · rw [step_dup orgs s r h1 h2]; exact ⟨hmap, hnd⟩
    · have hnd2 : (s.seen ++ [natKey r]).Nodup := by
        rw [List.nodup_append]
        exact ⟨hnd, List.nodup_singleton _, by simpa using h2⟩
      have hmap2 : (s.authorizations ++ [mkAuth orgs r]).map authKey
          = s.seen ++ [natKey r] := by
        rw [List.map_append, hmap]
        simp [authKey_mkAuth]
      cases h3 : truthy (matchResult orgs r) with
      | true => rw [step_new_matched orgs s r h1 h2 h3]; exact ⟨hmap2, hnd2⟩
      | false => rw [step_new_unmatched orgs s r h1 h2 h3]; exact ⟨hmap2, hnd2⟩

theorem foldl_keyInv (orgs : Dict) (rows : List InputRow) :
    ∀ s : ImportState, keyInv s → keyInv (rows.foldl (step orgs) s) := by
  induction rows with
  | nil => intro s h; simpa using h
  | cons r rows ih =>
    intro s h
    exact ih (step orgs s r) (step_keyInv orgs s r h)

theorem processRows_keyInv (orgs : Dict) (rows : List InputRow) :
    keyInv (processRows orgs rows) :=
  foldl_keyInv orgs rows initState ⟨rfl, List.nodup_nil⟩

/-- C5: deduplication by natural key. Emitted keys are pairwise distinct;
duplicates plus emitted records partition the non-skipped rows; the key of
every non-skipped row does get emitted (the first occurrence is retained);
and a non-skipped row whose key was already seen changes nothing but the
total and duplicates counters: no record is emitted for it and the matcher
result is irrelevant to the state. -/
theorem dedup_first_occurrence (orgs : Dict) (rows : List InputRow) :
    ((processRows orgs rows).authorizations.map authKey).Nodup
    ∧ (processRows orgs rows).stats.duplicates
        + (processRows orgs rows).authorizations.length
      = rows.countP (fun r => !(skippedRow r))
    ∧ (∀ r ∈ rows, skippedRow r = false →
        natKey r ∈ (processRows orgs rows).authorizations.map authKey)
    ∧ (∀ (s : ImportState) (r : InputRow), skippedRow r = false → natKey r ∈ s.seen →
        step orgs s r =
          { s with stats := { s.stats with
                              total := s.stats.total + 1
                              duplicates := s.stats.duplicates + 1 } }) := by
  obtain ⟨hmap, hnd⟩ := processRows_keyInv orgs rows
  refine ⟨hmap ▸ hnd, ?_, ?_, fun s r h1 h2 => step_dup orgs s r h1 h2⟩
  · have h1 := foldl_csum orgs rows initState
    have h2 := foldl_total orgs rows initState
    have h3 := foldl_skipped orgs rows initState
    have h4 := processRows_authlen orgs rows
    have h5 : rows.countP skippedRow + rows.countP (fun r => !(skippedRow r))
        = rows.length := by
      simpa using (List.length_eq_countP_add_countP skippedRow rows).symm
    simp only [csum, initState] at h1 h2 h3
    simp only [processRows, initState] at h4 ⊢
    omega
  · intro r hr hsk
    rw [hmap]
    exact foldl_seen_of_mem orgs rows initState r hr hsk

theorem dedup_first_occurrence_witness :
    (⟨"F1", "a", "", "", ""⟩ : InputRow) ∈
        [(⟨"F1", "a", "", "", ""⟩ : InputRow), ⟨"F1", "a", "", "", ""⟩]
    ∧ skippedRow ⟨"F1", "a", "", "", ""⟩ = false
    ∧ natKey ⟨"F1", "a", "", "", ""⟩ ∈
        ((processRows [] [⟨"F1", "a", "", "", ""⟩, ⟨"F1", "a", "", "", ""⟩]).authorizations.map
          authKey) :=
  ⟨by decide, by decide,
    (dedup_first_occurrence [] [⟨"F1", "a", "", "", ""⟩, ⟨"F1", "a", "", "", ""⟩]).2.2.1
      ⟨"F1", "a", "", "", ""⟩ (by decide) (by decide)⟩

/-- C7 counterexample: with the index binding alias "x" to the identifier
0, the matcher does return an identifier (some 0) for the retained row,
yet the pass counts the row as unmatched, not matched, because the source
tests Python truthiness of the result and 0 is falsy. -/
theorem retained_row_emitted_counterexample :
    match_agency_to_org "x" "" [("x", 0)] = some 0
    ∧ (processRows [("x", 0)] [⟨"F1", "x", "", "", ""⟩]).stats.matched = 0
    ∧ (processRows [("x", 0)] [⟨"F1", "x", "", "", ""⟩]).stats.unmatched = 1 := by
  decide

/-- C7 as amended: every retained (non-skipped, new-key) row is emitted
exactly once, appended in input order, and carries the matcher result
verbatim as its organization reference (null when unresolved); the row
increments matched when the result is truthy (a non-zero identifier) and
otherwise increments unmatched together with the frequency counter keyed
by sub-agency if present else parent agency. -/
theorem retained_row_emitted (orgs : Dict) (s : ImportState) (r : InputRow)
    (h1 : skippedRow r = false) (h2 : natKey r ∉ s.seen) :
    (mkAuth orgs r).organization_id = matchResult orgs r
    ∧ step orgs s r =
      { seen := s.seen ++ [natKey r]
        authorizations := s.authorizations ++ [mkAuth orgs r]
        stats := { total := s.stats.total + 1
                   matched := s.stats.matched + (if truthy (matchResult orgs r) then 1 else 0)
                   unmatched := s.stats.unmatched + (if truthy (matchResult orgs r) then 0 else 1)
                   skipped := s.stats.skipped
                   duplicates := s.stats.duplicates }
        unmatched_agencies :=
          if truthy (matchResult orgs r) then s.unmatched_agencies
          else incr s.unmatched_agencies (freqKey r) } := by
  refine ⟨rfl, ?_⟩
  cases h3 : truthy (matchResult orgs r) with
  | true => rw [step_new_matched orgs s r h1 h2 h3]; simp
  | false => rw [step_new_unmatched orgs s r h1 h2 h3]; simp

theorem retained_row_emitted_witness :
    skippedRow ⟨"F1", "a", "", "", ""⟩ = false
    ∧ natKey ⟨"F1", "a", "", "", ""⟩ ∉ initState.seen
    ∧ ((mkAuth [("a", 5)] ⟨"F1", "a", "", "", ""⟩).organization_id
          = matchResult [("a", 5)] ⟨"F1", "a", "", "", ""⟩
      ∧ step [("a", 5)] initState ⟨"F1", "a", "", "", ""⟩ =
        { seen := initState.seen ++ [natKey ⟨"F1", "a", "", "", ""⟩]
          authorizations := initState.authorizations
            ++ [mkAuth [("a", 5)] ⟨"F1", "a", "", "", ""⟩]
          stats := { total := initState.stats.total + 1
                     matched := initState.stats.matched
                       + (if truthy (matchResult [("a", 5)] ⟨"F1", "a", "", "", ""⟩) then 1 else 0)
                     unmatched := initState.stats.unmatched
                       + (if truthy (matchResult [("a", 5)] ⟨"F1", "a", "", "", ""⟩) then 0 else 1)
                     skipped := initState.stats.skipped
                     duplicates := initState.stats.duplicates }
          unmatched_agencies :=
            if truthy (matchResult [("a", 5)] ⟨"F1", "a", "", "", ""⟩) then
              initState.unmatched_agencies
            else incr initState.unmatched_agencies (freqKey ⟨"F1", "a", "", "", ""⟩) }) :=
  ⟨by decide, by decide,
    retained_row_emitted [("a", 5)] initState ⟨"F1", "a", "", "", ""⟩ (by decide) (by decide)⟩

/-- C9: a retained row the matcher resolves to the identifier 0 is counted
as unmatched, enters the unmatched-agency frequency table, and is emitted
with organization reference 0 (not null): the classification tests the
truthiness of the returned identifier, not whether one was returned. -/
theorem zero_id_counted_unmatched (orgs : Dict) (s : ImportState) (r : InputRow)
    (h1 : skippedRow r = false) (h2 : natKey r ∉ s.seen)
    (h3 : matchResult orgs r = some 0) :
    (step orgs s r).stats.unmatched = s.stats.unmatched + 1
    ∧ (step orgs s r).stats.matched = s.stats.matched
    ∧ (step orgs s r).authorizations = s.authorizations ++ [mkAuth orgs r]
    ∧ (mkAuth orgs r).organization_id = some 0
    ∧ (step orgs s r).unmatched_agencies = incr s.unmatched_agencies (freqKey r) := by
  have h4 : truthy (matchResult orgs r) = false := by rw [h3]; rfl
  rw [step_new_unmatched orgs s r h1 h2 h4]
  exact ⟨rfl, rfl, rfl, by simp [mkAuth, h3], rfl⟩

theorem zero_id_counted_unmatched_witness :
    skippedRow ⟨"F2", "x", "", "", ""⟩ = false
    ∧ matchResult [("x", 0)] ⟨"F2", "x", "", "", ""⟩ = some 0
    ∧ ((step [("x", 0)] initState ⟨"F2", "x", "", "", ""⟩).stats.unmatched
          = initState.stats.unmatched + 1
      ∧ (step [("x", 0)] initState ⟨"F2", "x", "", "", ""⟩).stats.matched
          = initState.stats.matched
      ∧ (step [("x", 0)] initState ⟨"F2", "x", "", "", ""⟩).authorizations
          = initState.authorizations ++ [mkAuth [("x", 0)] ⟨"F2", "x", "", "", ""⟩]
      ∧ (mkAuth [("x", 0)] ⟨"F2", "x", "", "", ""⟩).organization_id = some 0
      ∧ (step [("x", 0)] initState ⟨"F2", "x", "", "", ""⟩).unmatched_agencies
          = incr initState.unmatched_agencies (freqKey ⟨"F2", "x", "", "", ""⟩)) :=
  ⟨by decide, by decide,
    zero_id_counted_unmatched [("x", 0)] initState ⟨"F2", "x", "", "", ""⟩
      (by decide) (by decide) (by decide)⟩

/-- C10: the percentage report divides by matched + unmatched, which
equals the number of retained records; the run (report, then mutation
payload) survives the report exactly when at least one record was
retained, and it dies before producing the mutation payload on an empty
input or on an input whose only row is skipped. -/
theorem summary_division_guard :
    (∀ (orgs : Dict) (rows : List InputRow),
        (runImport orgs rows).isSome ↔ (processRows orgs rows).authorizations.length ≠ 0)
    ∧ (∀ orgs : Dict, runImport orgs [] = none)
    ∧ runImport [] [⟨"", "Agency A", "", "", ""⟩] = none := by
  refine ⟨?_, fun orgs => rfl, by decide⟩
  intro orgs rows
  have h := processRows_authlen orgs rows
  unfold runImport reportSummary
  by_cases h0 : (processRows orgs rows).stats.matched
      + (processRows orgs rows).stats.unmatched = 0
  · simp [h0, h]
  · simp [h0, h]

/-- Modelled from the words of claim C2 (refinement comparison only): the
matching cascade exactly as the claim states it for non-sentinel parents,
with no non-emptiness guard on the parent-agency lookup. -/
def matchCascadeClaimed (parent_agency sub_agency : String) (orgs : Dict) : Option Nat :=
  if sub_agency ≠ "" ∧ (lookup orgs (normalize_name sub_agency)).isSome then
    lookup orgs (normalize_name sub_agency)
  else if (lookup orgs (normalize_name parent_agency)).isSome then
    lookup orgs (normalize_name parent_agency)
  else if pyStartsWith parent_agency "Department of " ∧
      (lookup orgs (normalize_name (pyDrop parent_agency ("Department of ").length))).isSome then
    lookup orgs (normalize_name (pyDrop parent_agency ("Department of ").length))
  else if pyStartsWith parent_agency "Department of the " ∧
      (lookup orgs (normalize_name (pyDrop parent_agency ("Department of the ").length))).isSome then
    lookup orgs (normalize_name (pyDrop parent_agency ("Department of the ").length))
  else none

/-- The cascade of claim C2 amended with the truthiness guard the source
places on `parent_agency` before its direct lookup. -/
def matchCascadeAmended (parent_agency sub_agency : String) (orgs : Dict) : Option Nat :=
  if sub_agency ≠ "" ∧ (lookup orgs (normalize_name sub_agency)).isSome then
    lookup orgs (normalize_name sub_agency)
  else if parent_agency ≠ "" ∧ (lookup orgs (normalize_name parent_agency)).isSome then
    lookup orgs (normalize_name parent_agency)
  else if parent_agency ≠ "" ∧ pyStartsWith parent_agency "Department of " ∧
      (lookup orgs (normalize_name (pyDrop parent_agency ("Department of ").length))).isSome then
    lookup orgs (normalize_name (pyDrop parent_agency ("Department of ").length))
  else if parent_agency ≠ "" ∧ pyStartsWith parent_agency "Department of the " ∧
      (lookup orgs (normalize_name (pyDrop parent_agency ("Department of the ").length))).isSome then
    lookup orgs (normalize_name (pyDrop parent_agency ("Department of the ").length))
  else none

/-- C2 counterexample: the cascade as the claim words it resolves the
empty parent agency through the index binding of the empty key, but the
source guards the parent lookup behind Python truthiness of the string, so
the matcher returns unresolved there. -/
theorem matcher_precedence_counterexample :
    match_agency_to_org "" "" [("", 7)] = none
    ∧ matchCascadeClaimed "" "" [("", 7)] = some 7 := by
  decide

/-- C2 as amended: with the non-emptiness guard on `parent_agency` added
to the direct and prefix-stripped parent lookups, the matcher follows the
claimed precedence exactly on every non-sentinel input; and the matcher
resolves "Department of Example" with empty sub-agency exactly when
"example" or "department of example" is a registered alias. -/
theorem matcher_precedence_amended :
    (∀ (parent sub : String) (orgs : Dict),
        parent ≠ "Legacy JAB Authorization" →
        parent ≠ "Federal Risk and Authorization Management Program" →
        match_agency_to_org parent sub orgs = matchCascadeAmended parent sub orgs)
    ∧ (∀ orgs : Dict,
        (match_agency_to_org "Department of Example" "" orgs).isSome
          ↔ ((lookup orgs "example").isSome ∨ (lookup orgs "department of example").isSome)) := by
  constructor
  · intro parent sub orgs h1 h2
    unfold match_agency_to_org matchCascadeAmended
    rw [if_neg h1, if_neg h2]
  · intro orgs
    have e1 : normalize_name "Department of Example" = "department of example" := by decide
    have e2 : normalize_name (pyDrop "Department of Example" ("Department of ").length)
        = "example" := by decide
    have e3 : pyStartsWith "Department of Example" "Department of the " = false := by decide
    have e4 : pyStartsWith "Department of Example" "Department of " = true := by decide
    have e5 : ("Department of Example" : String) ≠ "" := by decide
    unfold match_agency_to_org
    rw [if_neg (by decide : ¬("Department of Example" : String) = "Legacy JAB Authorization"),
        if_neg (by decide :
          ¬("Department of Example" : String) = "Federal Risk and Authorization Management Program")]
    by_cases hp : (lookup orgs "department of example").isSome <;>
      by_cases he : (lookup orgs "example").isSome <;>
        simp [e1, e2, e3, e4, e5, hp, he]

theorem matcher_precedence_amended_witness :
    ("Department of Agriculture" : String) ≠ "Legacy JAB Authorization"
    ∧ ("Department of Agriculture" : String)
        ≠ "Federal Risk and Authorization Management Program"
    ∧ match_agency_to_org "Department of Agriculture" "" [("agriculture", 5)]
        = matchCascadeAmended "Department of Agriculture" "" [("agriculture", 5)] :=
  ⟨by decide, by decide,
    matcher_precedence_amended.1 "Department of Agriculture" "" [("agriculture", 5)]
      (by decide) (by decide)⟩

theorem lookup_cons (k0 : String) (v : Nat) (d : Dict) (key : String) :
    lookup ((k0, v) :: d) key = if key = k0 then some v else lookup d key := by
  by_cases h : key = k0
  · simp [lookup, List.find?_cons, h]
  · have h2 : (k0 == key) = false := beq_eq_false_iff_ne.mpr fun hh => h hh.symm
    simp [lookup, List.find?_cons, h, h2]

/-- The normalized aliases one organization row registers, in insertion
order: name, then short name and abbreviation when non-empty. -/
def aliasesOf (r : OrgRow) : List String :=
  [normalize_name r.name]
    ++ (if r.short_name ≠ "" then [normalize_name r.short_name] else [])
    ++ (if r.abbreviation ≠ "" then [normalize_name r.abbreviation] else [])

theorem lookup_indexRow (d : Dict) (r : OrgRow) (k : String) :
    lookup (indexRow d r) k = if k ∈ aliasesOf r then some r.id else lookup d k := by
  by_cases hs : r.short_name = "" <;> by_cases ha : r.abbreviation = "" <;>
    by_cases h1 : k = normalize_name r.name <;>
      by_cases h2 : k = normalize_name r.short_name <;>
        by_cases h3 : k = normalize_name r.abbreviation <;>
          simp [indexRow, dinsert, aliasesOf, lookup_cons, hs, ha, h1, h2, h3] <;>
            split_ifs <;> simp_all

theorem lookup_foldl_of_not_alias (l : List OrgRow) :
    ∀ (d : Dict) (k : String), (∀ q ∈ l, k ∉ aliasesOf q) →
      lookup (l.foldl indexRow d) k = lookup d k := by
  induction l with
  | nil => intro d k _; rfl
  | cons q l ih =>
    intro d k h
    rw [List.foldl_cons,
      ih (indexRow d q) k (fun q2 hq2 => h q2 (List.mem_cons_of_mem q hq2)),
      lookup_indexRow, if_neg (h q (List.mem_cons_self q l))]

/-- C4 counterexample: the first record registers abbreviation "x" for
identifier 1, but a later record named "x" overwrites the alias, so the
index resolves the normalized abbreviation to 2, not 1. -/
theorem abbreviation_resolves_counterexample :
    (⟨1, "b", "", "x", 0, none, true⟩ : OrgRow).abbreviation = "x"
    ∧ lookup (get_federal_organizations
        [⟨1, "b", "", "x", 0, none, true⟩, ⟨2, "x", "", "", 0, none, true⟩])
        (normalize_name "x") = some 2
    ∧ lookup (get_federal_organizations
        [⟨1, "b", "", "x", 0, none, true⟩, ⟨2, "x", "", "", 0, none, true⟩])
        (normalize_name "x") ≠ some 1 := by
  decide

/-- C4 as amended: for an active record with a non-empty abbreviation, the
index built by `get_federal_organizations` resolves the normalized
abbreviation to that record, provided no active record later in
iteration order registers the same normalized alias (last write wins on
collision; within one record the abbreviation is registered last). -/
theorem abbreviation_resolves (l1 l2 : List OrgRow) (r : OrgRow)
    (hact : r.is_active = true) (habbr : r.abbreviation ≠ "")
    (hlater : ∀ q ∈ l2, q.is_active = true → normalize_name r.abbreviation ∉ aliasesOf q) :
    lookup (get_federal_organizations (l1 ++ r :: l2)) (normalize_name r.abbreviation)
      = some r.id := by
  unfold get_federal_organizations
  rw [List.filter_append, List.foldl_append]
  have hfc : (r :: l2).filter (fun q => q.is_active)
      = r :: l2.filter (fun q => q.is_active) := by
    simp [List.filter_cons, hact]
  rw [hfc, List.foldl_cons]
  have hnot : ∀ q ∈ l2.filter (fun q => q.is_active),
      normalize_name r.abbreviation ∉ aliasesOf q := by
    intro q hq
    have hm := List.mem_filter.mp hq
    exact hlater q hm.1 hm.2
  rw [lookup_foldl_of_not_alias (l2.filter (fun q => q.is_active))
      (indexRow ((l1.filter (fun q => q.is_active)).foldl indexRow []) r)
      (normalize_name r.abbreviation) hnot,
    lookup_indexRow, if_pos (by simp [aliasesOf, habbr])]

theorem abbreviation_resolves_witness :
    (⟨1, "Department of Example", "", "DOE2", 0, none, true⟩ : OrgRow).is_active = true
    ∧ (⟨1, "Department of Example", "", "DOE2", 0, none, true⟩ : OrgRow).abbreviation ≠ ""
    ∧ lookup (get_federal_organizations
        [⟨1, "Department of Example", "", "DOE2", 0, none, true⟩])
        (normalize_name "DOE2") = some 1 :=
  ⟨by decide, by decide,
    abbreviation_resolves [] [] ⟨1, "Department of Example", "", "DOE2", 0, none, true⟩
      (by decide) (by decide) (fun q hq => absurd hq (List.not_mem_nil q))⟩

/-- The end-to-end scenario of the spec: one organization, a duplicate
pair of rows resolving to it and one unknown agency row. -/
theorem spec_scenario :
    (processRows [("department of example", 1)]
      [⟨"F-001", "Department of Example", "", "", ""⟩,
       ⟨"F-001", "Department of Example", "", "", ""⟩,
       ⟨"F-002", "Unknown Dept", "Sub X", "", ""⟩]).stats = ⟨3, 1, 1, 0, 1⟩ := by
  decide

end FedrampImport
